import Mathlib

set_option maxRecDepth 1000

/-!
Verification development for the FinTrack metrics/insights engine
(`client/src/components/FinTrack.tsx`).

The engine is a set of pure derivations over in-memory transaction and goal
lists.  JavaScript numbers are modelled by `JsNum`: an exact rational together
with the three non-finite values `NaN`, `Infinity` and `-Infinity`.  All
arithmetic the engine performs (addition, subtraction, multiplication,
division, comparison) is structure-preserving on these values; rationals stand
in for binary64 floats, which is exact on the decimal data the engine
manipulates and keeps the NaN/Infinity propagation of IEEE semantics, which is
what the error-handling claims are about.
-/

/-- Model of a JavaScript number: a rational, or one of `NaN`, `+Infinity`,
`-Infinity`.  (`-0` is identified with `0`.) -/
inductive JsNum where
  | num (q : ℚ)
  | nan
  | inf
  | negInf
deriving DecidableEq, Repr

namespace JsNum

/-- IEEE-style addition. -/
def add : JsNum → JsNum → JsNum
  | num a, num b => num (a + b)
  | nan, _ => nan
  | _, nan => nan
  | inf, negInf => nan
  | negInf, inf => nan
  | inf, _ => inf
  | _, inf => inf
  | negInf, _ => negInf
  | _, negInf => negInf

/-- IEEE-style negation. -/
def neg : JsNum → JsNum
  | num a => num (-a)
  | nan => nan
  | inf => negInf
  | negInf => inf

/-- IEEE-style subtraction. -/
def sub (a b : JsNum) : JsNum := a.add b.neg

/-- IEEE-style multiplication. -/
def mul : JsNum → JsNum → JsNum
  | num a, num b => num (a * b)
  | nan, _ => nan
  | _, nan => nan
  | inf, inf => inf
  | inf, negInf => negInf
  | negInf, inf => negInf
  | negInf, negInf => inf
  | inf, num b => if b = 0 then nan else if 0 < b then inf else negInf
  | num a, inf => if a = 0 then nan else if 0 < a then inf else negInf
  | negInf, num b => if b = 0 then nan else if 0 < b then negInf else inf
  | num a, negInf => if a = 0 then nan else if 0 < a then negInf else inf

/-- IEEE-style division (with `-0` identified with `0`: a finite value divided
by zero gives `Infinity`, `-Infinity` or `NaN` according to the sign of the
dividend). -/
def div : JsNum → JsNum → JsNum
  | num a, num b =>
      if b = 0 then (if a = 0 then nan else if 0 < a then inf else negInf)
      else num (a / b)
  | nan, _ => nan
  | _, nan => nan
  | inf, inf => nan
  | inf, negInf => nan
  | negInf, inf => nan
  | negInf, negInf => nan
  | inf, num b => if 0 ≤ b then inf else negInf
  | negInf, num b => if 0 ≤ b then negInf else inf
  | num _, inf => num 0
  | num _, negInf => num 0

/-- The JS `>` comparison: any comparison with `NaN` is false. -/
def gtb : JsNum → JsNum → Bool
  | num a, num b => decide (b < a)
  | nan, _ => false
  | _, nan => false
  | inf, inf => false
  | inf, _ => true
  | negInf, _ => false
  | num _, inf => false
  | num _, negInf => true

/-- The JS `<` comparison. -/
def ltb (a b : JsNum) : Bool := gtb b a

/-- `x > 0` in JS. -/
def gt0 (a : JsNum) : Bool := a.gtb (num 0)

/-- The JS expression `v || 0` for a number `v`: `NaN`, `0` and `-0` are falsy
and are replaced by `0`; every other number is kept. -/
def or0 : JsNum → JsNum
  | nan => num 0
  | x => x

/-- Whether the value is finite (a rational). -/
def isNum : JsNum → Bool
  | num _ => true
  | _ => false

/-- The rational carried by a finite value (junk `0` otherwise). -/
def toQ : JsNum → ℚ
  | num q => q
  | _ => 0

end JsNum

/-! ### Character and string utilities

The engine's inputs carry numeric data and dates as strings; these helpers
model the JavaScript string primitives the component uses
(`String.prototype.startsWith`, `parseFloat`, `ToNumber`, `Date` parsing,
`Number.prototype.toFixed`, `Intl.NumberFormat`), implemented over `List Char`
so that every concrete instance reduces in the kernel. -/

/-- Decimal digit test. -/
def isDigitCh (c : Char) : Bool := 48 ≤ c.toNat && c.toNat ≤ 57

/-- Value of a decimal digit. -/
def digitVal (c : Char) : ℕ := c.toNat - 48

/-- Character of a decimal digit. -/
def digitCh (n : ℕ) : Char := Char.ofNat (48 + n)

/-- Longest digit run at the front of the characters, with the rest. -/
def takeDigits : List Char → List Char × List Char
  | [] => ([], [])
  | c :: cs =>
      if isDigitCh c then
        let p := takeDigits cs
        (c :: p.1, p.2)
      else ([], c :: cs)

/-- Natural number denoted by a digit run. -/
def digitsToNat (ds : List Char) : ℕ := ds.foldl (fun n c => n * 10 + digitVal c) 0

/-- Model of JS `StrWhiteSpace` skipping (the whitespace forms the data can
contain: space, tab, newline, carriage return). -/
def skipWs : List Char → List Char
  | ' ' :: cs => skipWs cs
  | '\t' :: cs => skipWs cs
  | '\n' :: cs => skipWs cs
  | '\r' :: cs => skipWs cs
  | cs => cs

/-- Boolean list-prefix test (model of JS `String.prototype.startsWith`,
specialised below to strings). -/
def listHeadMatches : List Char → List Char → Bool
  | [], _ => true
  | _ :: _, [] => false
  | a :: as, b :: bs => a == b && listHeadMatches as bs

/-- Model of JS `s.startsWith(p)`. -/
def strStartsWith (s p : String) : Bool := listHeadMatches p.data s.data

/-- The rational `n / 1`, built as a structure literal.  Equal to the cast
`(n : ℚ)` (see `qOfNat_eq_cast`), but reducing in a handful of steps, where the
generic numeral and cast paths unfold unarily and defeat evaluation on values
in the thousands. -/
def qOfNat (n : ℕ) : ℚ := ⟨n, 1, one_ne_zero, Nat.coprime_one_right _⟩

theorem qOfNat_eq_cast (n : ℕ) : qOfNat n = (n : ℚ) := by
  unfold qOfNat
  apply Rat.ext <;> simp

/-- `q * 10 ^ e` for a signed decimal exponent. -/
def mulPow10 (q : ℚ) (negE : Bool) (e : ℕ) : ℚ :=
  if negE then q / (10 : ℚ) ^ e else q * (10 : ℚ) ^ e

/-- Apply an optional exponent part (`e`/`E`, optional sign, digits) to an
already-parsed mantissa, returning the value and the unconsumed characters.
A malformed exponent (no digits) is not consumed, per the longest-valid-prefix
rule of `parseFloat`. -/
def applyExp (q : ℚ) (cs : List Char) : ℚ × List Char :=
  match cs with
  | 'e' :: rest =>
      (match rest with
       | '+' :: r2 =>
           let p := takeDigits r2
           if p.1.isEmpty then (q, cs) else (mulPow10 q false (digitsToNat p.1), p.2)
       | '-' :: r2 =>
           let p := takeDigits r2
           if p.1.isEmpty then (q, cs) else (mulPow10 q true (digitsToNat p.1), p.2)
       | r2 =>
           let p := takeDigits r2
           if p.1.isEmpty then (q, cs) else (mulPow10 q false (digitsToNat p.1), p.2))
  | 'E' :: rest =>
      (match rest with
       | '+' :: r2 =>
           let p := takeDigits r2
           if p.1.isEmpty then (q, cs) else (mulPow10 q false (digitsToNat p.1), p.2)
       | '-' :: r2 =>
           let p := takeDigits r2
           if p.1.isEmpty then (q, cs) else (mulPow10 q true (digitsToNat p.1), p.2)
       | r2 =>
           let p := takeDigits r2
           if p.1.isEmpty then (q, cs) else (mulPow10 q false (digitsToNat p.1), p.2))
  | _ => (q, cs)

/-- Parse an unsigned decimal literal (`digits [. digits] [exp]` or
`. digits [exp]`) at the front of the characters; `none` when no digits are
present.  Returns the exact rational value and the rest. -/
def parseDec (cs : List Char) : Option (ℚ × List Char) :=
  let ip := takeDigits cs
  match ip.1, ip.2 with
  | [], '.' :: r2 =>
      let fp := takeDigits r2
      if fp.1.isEmpty then none
      else some (applyExp (qOfNat (digitsToNat fp.1) / (10 : ℚ) ^ fp.1.length) fp.2)
  | [], _ => none
  | _ :: _, '.' :: r2 =>
      let fp := takeDigits r2
      some (applyExp (qOfNat (digitsToNat ip.1) + qOfNat (digitsToNat fp.1) / (10 : ℚ) ^ fp.1.length) fp.2)
  | _ :: _, _ => some (applyExp (qOfNat (digitsToNat ip.1)) ip.2)

/-- Model of JS `parseFloat`: skip leading whitespace, optional sign, then the
longest valid decimal-literal (or `Infinity`) prefix; `NaN` when none. -/
def parseFloat (s : String) : JsNum :=
  let cs := skipWs s.data
  match cs with
  | '-' :: r =>
      if listHeadMatches ("Infinity".data) r then JsNum.negInf
      else match parseDec r with
        | none => JsNum.nan
        | some p => JsNum.num (-p.1)
  | '+' :: r =>
      if listHeadMatches ("Infinity".data) r then JsNum.inf
      else match parseDec r with
        | none => JsNum.nan
        | some p => JsNum.num p.1
  | r =>
      if listHeadMatches ("Infinity".data) r then JsNum.inf
      else match parseDec r with
        | none => JsNum.nan
        | some p => JsNum.num p.1

/-- Model of JS `ToNumber` on a string (as triggered by `-` on strings):
whitespace-trimmed, the empty string is `0`, and the whole remainder must be a
signed decimal literal or `Infinity`, else `NaN`.  (The hexadecimal, octal and
binary literal forms do not occur in this application's data and are mapped to
`NaN` only when they fail the decimal grammar, which is exactly the decimal
behaviour for the digit strings the engine builds.) -/
def jsToNumber (s : String) : JsNum :=
  let cs := (skipWs (skipWs s.data).reverse).reverse
  match cs with
  | [] => JsNum.num 0
  | '-' :: r =>
      if r == "Infinity".data then JsNum.negInf
      else match parseDec r with
        | some (q, []) => JsNum.num (-q)
        | _ => JsNum.nan
  | '+' :: r =>
      if r == "Infinity".data then JsNum.inf
      else match parseDec r with
        | some (q, []) => JsNum.num q
        | _ => JsNum.nan
  | r =>
      if r == "Infinity".data then JsNum.inf
      else match parseDec r with
        | some (q, []) => JsNum.num q
        | _ => JsNum.nan

/-- Leap-year test (proleptic Gregorian, as used by ECMAScript dates). -/
def isLeap (y : ℕ) : Bool := (y % 4 == 0 && y % 100 != 0) || y % 400 == 0

/-- Days in a month. -/
def daysInMonth (y m : ℕ) : ℕ :=
  if m == 2 then (if isLeap y then 29 else 28)
  else if m == 4 || m == 6 || m == 9 || m == 11 then 30
  else 31

/-- Model of `new Date(s).getTime()` for the calendar-date ISO strings this
application stores (`YYYY-MM-DD`): an order-isomorphic key
`y * 10000 + m * 100 + d` on valid calendar dates (strictly increasing exactly
when the real millisecond timestamp is), and `NaN` on anything else, matching
the `NaN` timestamp of an invalid `Date`.  Only the order and `NaN`-ness of
`getTime` are consumed by the engine (inside a sort comparator), so an
order-isomorphic key is a faithful model. -/
def jsDateTime (s : String) : JsNum :=
  match s.data with
  | [y1, y2, y3, y4, '-', m1, m2, '-', d1, d2] =>
      if isDigitCh y1 && isDigitCh y2 && isDigitCh y3 && isDigitCh y4 &&
         isDigitCh m1 && isDigitCh m2 && isDigitCh d1 && isDigitCh d2 then
        let y := digitsToNat [y1, y2, y3, y4]
        let m := digitsToNat [m1, m2]
        let d := digitsToNat [d1, d2]
        if 1 ≤ m && m ≤ 12 && 1 ≤ d && d ≤ daysInMonth y m then
          JsNum.num (qOfNat (y * 10000 + m * 100 + d))
        else JsNum.nan
      else JsNum.nan
  | _ => JsNum.nan

/-! ### Number rendering

Models of `Number.prototype.toFixed` and of `Intl.NumberFormat('en-US',
{style: 'currency', currency})`, used only to build the insight message
strings. -/

/-- Decimal digits of a natural number (fuel-driven; the fuel `n + 1` always
suffices). -/
def natChars : ℕ → ℕ → List Char
  | 0, _ => []
  | fuel + 1, n => if n < 10 then [digitCh n] else natChars fuel (n / 10) ++ [digitCh (n % 10)]

/-- Decimal string of a natural number. -/
def natStr (n : ℕ) : String := ⟨natChars (n + 1) n⟩

/-- Insert `en-US` thousands separators into a reversed digit list; the
counter is the number of digits already emitted in the current group. -/
def groupRev : List Char → ℕ → List Char
  | [], _ => []
  | c :: cs, k => if k == 3 then ',' :: c :: groupRev cs 1 else c :: groupRev cs (k + 1)

/-- Pad a digit list on the left with zeros to the given width. -/
def padZeros (w : ℕ) (ds : List Char) : List Char := List.replicate (w - ds.length) '0' ++ ds

/-- Render `n / 10 ^ d` with `d` fixed fraction digits, no grouping (the body
of `toFixed`). -/
def fixedNat (n d : ℕ) : String :=
  if d == 0 then natStr n
  else
    let ip := n / 10 ^ d
    let fp := n % 10 ^ d
    natStr ip ++ "." ++ ⟨padZeros d (natChars (fp + 1) fp)⟩

/-- Render `n / 10 ^ d` with `d` fixed fraction digits and `en-US` thousands
grouping of the integer part. -/
def groupedFixedNat (n d : ℕ) : String :=
  let ip := n / 10 ^ d
  let ipg : List Char := (groupRev (natChars (ip + 1) ip).reverse 0).reverse
  if d == 0 then ⟨ipg⟩
  else
    let fp := n % 10 ^ d
    ⟨ipg⟩ ++ "." ++ ⟨padZeros d (natChars (fp + 1) fp)⟩

/-- Model of JS `x.toFixed(d)`: the integer `n` closest to `x * 10 ^ d`, ties
to the larger `n`, rendered with `d` fraction digits. -/
def JsNum.toFixed : JsNum → ℕ → String
  | JsNum.nan, _ => "NaN"
  | JsNum.inf, _ => "Infinity"
  | JsNum.negInf, _ => "-Infinity"
  | JsNum.num q, d =>
      let n : ℤ := Rat.floor (q * (10 : ℚ) ^ d + 1 / 2)
      if n < 0 then "-" ++ fixedNat n.natAbs d else fixedNat n.toNat d

/-- Symbol and fraction-digit count used by `Intl.NumberFormat('en-US')` for
the currencies the application offers. -/
def currencyInfo : String → String × ℕ
  | "USD" => ("$", 2)
  | "EUR" => ("€", 2)
  | "GBP" => ("£", 2)
  | "JPY" => ("¥", 0)
  | "CAD" => ("CA$", 2)
  | "LKR" => ("LKR ", 2)
  | c => (c ++ " ", 2)

/-- Model of the component's `formatCurrency` (`FinTrack.tsx` lines 149-157)
applied to an already-numeric amount: `Intl.NumberFormat('en-US', {style:
'currency', currency}).format(v || 0)`.  The `v || 0` coercion replaces `NaN`
by `0`; rounding is half-away-from-zero (`halfExpand`, the Intl default). -/
def formatCurrency (currency : String) (v : JsNum) : String :=
  let info := currencyInfo currency
  match v.or0 with
  | JsNum.num q =>
      let n : ℕ := (Rat.floor (|q| * (10 : ℚ) ^ info.2 + 1 / 2)).toNat
      (if q < 0 then "-" else "") ++ info.1 ++ groupedFixedNat n info.2
  | JsNum.inf => info.1 ++ "∞"
  | JsNum.negInf => "-" ++ info.1 ++ "∞"
  | JsNum.nan => info.1 ++ "NaN"

/-! ### Data model

`Transaction` and `Goal` as consumed by the engine (`@shared/schema`): the
numeric payloads `amount`, `current`, `target` are decimal strings and `date`
is an ISO date string. -/

/-- A transaction record. -/
structure Transaction where
  id : String
  date : String
  amount : String
  type : String
  category : String
deriving DecidableEq, Repr

/-- A savings-goal record. -/
structure Goal where
  id : String
  name : String
  current : String
  target : String
deriving DecidableEq, Repr

/-- The derived monthly metrics (`financialMetrics`, lines 161-171). -/
structure Metrics where
  income : JsNum
  expenses : JsNum
  totalBudget : JsNum
  usedPercent : JsNum
  remaining : JsNum
  savingsRate : JsNum
deriving DecidableEq, Repr

/-- A pie-chart slice (lines 174-187). -/
structure Slice where
  name : String
  value : JsNum
  color : String
deriving DecidableEq, Repr

/-- One templated insight (lines 216-260). -/
structure Insight where
  type : String
  color : String
  icon : String
  title : String
  message : String
deriving DecidableEq, Repr

/-- The goal projection built inside `insights` (lines 209-214). -/
structure TopGoal where
  name : String
  progress : JsNum
deriving DecidableEq, Repr

/-! ### The engine -/

/-- `financialMetrics` (lines 161-171): filter to the reference month by
string-prefix match on the date, sum `parseFloat(amount)` separately per
`type`, and derive the percentages with the guards written in the source. -/
def financialMetrics (transactions : List Transaction) (currentMonth : String) : Metrics :=
  let monthTx := transactions.filter (fun t => strStartsWith t.date currentMonth)
  let income := (monthTx.filter (fun t => t.type == "income")).foldl
      (fun s t => s.add (parseFloat t.amount)) (JsNum.num 0)
  let expenses := (monthTx.filter (fun t => t.type == "expense")).foldl
      (fun s t => s.add (parseFloat t.amount)) (JsNum.num 0)
  let totalBudget : JsNum := JsNum.num (qOfNat 2500)
  let usedPercent := if totalBudget.gtb (JsNum.num 0)
      then (expenses.div totalBudget).mul (JsNum.num 100) else JsNum.num 0
  let remaining := totalBudget.sub expenses
  let savingsRate := if income.gtb (JsNum.num 0)
      then ((income.sub expenses).div income).mul (JsNum.num 100) else JsNum.num 0
  ⟨income, expenses, totalBudget, usedPercent, remaining, savingsRate⟩

/-- `pieChartData` (lines 174-187): up to three slices pushed in a fixed
order, each behind a strict `> 0` test. -/
def pieChartData (m : Metrics) : List Slice :=
  (if m.income.gt0 then [⟨"Income", m.income, "hsl(var(--chart-1))"⟩] else []) ++
  (if m.expenses.gt0 then [⟨"Expenses", m.expenses, "hsl(var(--chart-2))"⟩] else []) ++
  (let savings := m.income.sub m.expenses;
   if savings.gt0 then [⟨"Savings", savings, "hsl(var(--primary))"⟩] else [])

/-! ### A stable comparator sort

`Array.prototype.sort` with a numeric comparator: stable, with a comparator
result of `NaN` (like `0`) meaning "keep the current relative order".  The
source sorts freshly filtered/mapped arrays, so an out-of-place stable
insertion sort is an exact model: each successive element is inserted before
the first already-placed element the comparator orders strictly after it, and
therefore after every element it ties with. -/

/-- Insert `x` before the first `y` with `cmp y x > 0`. -/
def insertJs {α : Type} (cmp : α → α → JsNum) (x : α) : List α → List α
  | [] => [x]
  | y :: ys => if (cmp y x).gt0 then x :: y :: ys else y :: insertJs cmp x ys

/-- Stable sort by a JS comparator. -/
def sortJs {α : Type} (cmp : α → α → JsNum) (l : List α) : List α :=
  l.foldl (fun acc x => insertJs cmp x acc) []

/-- `recentTransactions` (lines 190-195): month filter, stable sort descending
by `new Date(date).getTime()`, first five. -/
def cmpRecent (a b : Transaction) : JsNum := (jsDateTime b.date).sub (jsDateTime a.date)

/-- The sorted month slice underlying `recentTransactions`. -/
def recentSorted (transactions : List Transaction) (currentMonth : String) : List Transaction :=
  sortJs cmpRecent (transactions.filter (fun t => strStartsWith t.date currentMonth))

/-- `recentTransactions` (lines 190-195). -/
def recentTransactions (transactions : List Transaction) (currentMonth : String) : List Transaction :=
  (recentSorted transactions currentMonth).take 5

/-! ### Category grouping

Both category breakdowns reduce the month's expense transactions into a plain
object keyed by category.  String keys keep insertion order in JS, so the
object is modelled as an association list: an existing key is updated in
place, a new key is appended. -/

/-- First-match association lookup (model of `acc[key]` on the object). -/
def alookup {β : Type} (c : String) : List (String × β) → Option β
  | [] => none
  | p :: ps => if p.1 == c then some p.2 else alookup c ps

/-- One step of the reduce: update the transaction's category with `f`, which
receives the previous value when the key is present. -/
def catStep {β : Type} (f : Option β → Transaction → β)
    (acc : List (String × β)) (t : Transaction) : List (String × β) :=
  match alookup t.category acc with
  | some _ => acc.map (fun p => if p.1 == t.category then (p.1, f (some p.2) t) else p)
  | none => acc ++ [(t.category, f none t)]

/-- The whole reduce, from the empty object. -/
def foldCat {β : Type} (f : Option β → Transaction → β) (l : List Transaction) :
    List (String × β) :=
  l.foldl (catStep f) []

/-- The month's expense transactions (the filter shared by both breakdowns,
lines 199-200 and 608-609). -/
def monthExpense (transactions : List Transaction) (currentMonth : String) : List Transaction :=
  transactions.filter (fun t => t.type == "expense" && strStartsWith t.date currentMonth)

/-- The update `(acc[t.category] || 0) + parseFloat(t.amount)` of the insights
path (lines 201-204): an absent key reads as `undefined`, which `|| 0` turns
into `0`; a present `NaN` or `0` is likewise reset to `0`. -/
def numCatUpdate (o : Option JsNum) (t : Transaction) : JsNum :=
  (match o with
   | none => JsNum.num 0
   | some v => v.or0).add (parseFloat t.amount)

/-- The category → summed-amount object of the insights path (lines 199-204),
in first-encounter key order. -/
def categoryEntries (transactions : List Transaction) (currentMonth : String) :
    List (String × JsNum) :=
  foldCat numCatUpdate (monthExpense transactions currentMonth)

/-- The comparator `([,a],[,b]) => b - a` on the entry values. -/
def cmpEntry {β : Type} (toNum : β → JsNum) (p q : String × β) : JsNum :=
  (toNum q.2).sub (toNum p.2)

/-- `Object.entries(categoryBreakdown).sort(([,a],[,b]) => b - a)`
(lines 206-207): the insights-path breakdown, sorted descending by summed
amount. -/
def categoryBreakdown (transactions : List Transaction) (currentMonth : String) :
    List (String × JsNum) :=
  sortJs (cmpEntry id) (categoryEntries transactions currentMonth)

/-- `topCategory` (lines 206-207): head of the sorted breakdown
(`undefined`, i.e. `none`, on an empty object). -/
def topCategory (transactions : List Transaction) (currentMonth : String) :
    Option (String × JsNum) :=
  (categoryBreakdown transactions currentMonth).head?

/-- The per-goal progress `parseFloat(g.current) / parseFloat(g.target) * 100`
(line 212) - note: no guard on a zero target. -/
def goalProgress (g : Goal) : JsNum :=
  ((parseFloat g.current).div (parseFloat g.target)).mul (JsNum.num 100)

/-- The comparator `(a, b) => b.progress - a.progress` (line 214). -/
def cmpGoal (a b : TopGoal) : JsNum := b.progress.sub a.progress

/-- `topGoal` (lines 209-214): map each goal to its progress, stable sort
descending by progress, take the head (`none` when there are no goals). -/
def topGoal (goals : List Goal) : Option TopGoal :=
  (sortJs cmpGoal (goals.map (fun g => ⟨g.name, goalProgress g⟩))).head?

/-- `insights` (lines 198-261): the fixed five-entry list.  `currency` is the
resolved `user?.currency || 'USD'` consumed by `formatCurrency`; the messages
are built exactly as the template literals in the source. -/
def insights (transactions : List Transaction) (goals : List Goal)
    (currentMonth : String) (currency : String) : List Insight :=
  let m := financialMetrics transactions currentMonth
  [ { type := "savings", color := "green", icon := "TrendingUp",
      title := "Savings Analysis",
      message := if m.savingsRate.gt0
        then "Excellent! You\x27re saving " ++ m.savingsRate.toFixed 1 ++
             "% of your income this month."
        else "Start tracking your income to see your savings rate." },
    { type := "spending", color := "red", icon := "ShoppingBag",
      title := "Spending Pattern",
      message := match topCategory transactions currentMonth with
        | some p => "Your top spending is " ++ p.1 ++ ": " ++
            formatCurrency currency p.2 ++ " this month."
        | none => "No spending data available yet." },
    { type := "goals", color := "purple", icon := "Target",
      title := "Goal Progress",
      message := match topGoal goals with
        | some g => g.name ++ " is " ++ g.progress.toFixed 1 ++
            "% complete - keep it up!"
        | none => "Set your first goal to start tracking progress!" },
    { type := "habits", color := "indigo", icon := "Calendar",
      title := "Spending Habits",
      message := if m.usedPercent.ltb (JsNum.num 80)
        then "Great spending discipline this month!"
        else "You\x27re approaching your budget limit - watch your spending!" },
    { type := "budget", color := "green", icon := "DollarSign",
      title := "Budget Status",
      message := "Budget looking good: " ++ m.usedPercent.toFixed 1 ++ "% used" } ]

/-! ### The Insights-screen breakdown (lines 607-616)

This second breakdown reduces with `(acc[t.category] || 0) + t.amount` where
`t.amount` is the raw decimal **string**: JS `+` with a string operand
concatenates, so an absent key yields `"0" + amount` and a present (nonempty,
hence truthy) string value is extended by concatenation.  The comparator
`([,a],[,b]) => b - a` then coerces the concatenated strings through
`ToNumber`. -/

/-- The string update of the screen path: `undefined || 0` is the number `0`,
the empty string is falsy and is likewise replaced by `0`, and `+` with the
string `t.amount` concatenates (numbers are stringified first). -/
def strCatUpdate (o : Option String) (t : Transaction) : String :=
  (match o with
   | none => "0"
   | some s => if s == "" then "0" else s) ++ t.amount

/-- The category → concatenated-string object of the screen path. -/
def screenEntries (transactions : List Transaction) (currentMonth : String) :
    List (String × String) :=
  foldCat strCatUpdate (monthExpense transactions currentMonth)

/-- The screen path's sorted entry list (sort key: `ToNumber` of the
concatenated string). -/
def screenSorted (transactions : List Transaction) (currentMonth : String) :
    List (String × String) :=
  sortJs (cmpEntry jsToNumber) (screenEntries transactions currentMonth)

/-- The rendered screen breakdown: the sorted entries truncated by
`.slice(0, 4)` (line 616); the subsequent `.map` renders one row per kept
entry, so this list's length is the rendered row count. -/
def screenBreakdown (transactions : List Transaction) (currentMonth : String) :
    List (String × String) :=
  (screenSorted transactions currentMonth).take 4

/-- First-encounter deduplication (the key order of a JS object built by
insertion). -/
def firstDedup (l : List String) : List String :=
  l.foldl (fun acc c => if c ∈ acc then acc else acc ++ [c]) []

/-! ### Lemmas about the stable comparator sort

The engine's three sorts all use a comparator of the shape
`(a, b) => key(b) - key(a)` — descending by a numeric key.  On elements whose
key is finite the comparator returns `num (k b - k a)`, and `sortJs` is then
the stable descending sort by `k`: the lemmas below establish membership,
length, sortedness and stability (elements with equal keys keep their input
order). -/

theorem mem_insertJs {α : Type} (cmp : α → α → JsNum) (x : α) (l : List α) (a : α) :
    a ∈ insertJs cmp x l ↔ a = x ∨ a ∈ l := by
  induction l with
  | nil => simp [insertJs]
  | cons y ys ih =>
    rw [insertJs]
    by_cases h : (cmp y x).gt0
    · simp [h, List.mem_cons]
    · simp [h, List.mem_cons, ih]
      tauto

theorem length_insertJs {α : Type} (cmp : α → α → JsNum) (x : α) (l : List α) :
    (insertJs cmp x l).length = l.length + 1 := by
  induction l with
  | nil => rfl
  | cons y ys ih =>
    rw [insertJs]
    by_cases h : (cmp y x).gt0 <;> simp [h, ih]

theorem gt0_num (q : ℚ) : (JsNum.num q).gt0 = decide (0 < q) := rfl

theorem sorted_insertJs {α : Type} (cmp : α → α → JsNum) (P : α → Prop) (k : α → ℚ)
    (hcmp : ∀ a b, P a → P b → cmp a b = JsNum.num (k b - k a))
    (x : α) (l : List α) (hx : P x) (hl : ∀ a ∈ l, P a)
    (hs : l.Pairwise (fun a b => k b ≤ k a)) :
    (insertJs cmp x l).Pairwise (fun a b => k b ≤ k a) := by
  induction l with
  | nil => simp [insertJs]
  | cons y ys ih =>
    have hy : P y := hl y (List.mem_cons_self y ys)
    have hys : ∀ a ∈ ys, P a := fun a ha => hl a (List.mem_cons_of_mem y ha)
    rw [insertJs, hcmp y x hy hx, gt0_num]
    by_cases hlt : k y < k x
    · rw [if_pos (by simpa using sub_pos.mpr hlt)]
      rw [List.pairwise_cons]
      refine ⟨fun b hb => ?_, hs⟩
      rcases List.mem_cons.mp hb with rfl | hb'
      · exact le_of_lt hlt
      · have := (List.pairwise_cons.mp hs).1 b hb'
        linarith
    · rw [if_neg (by simpa using fun h => hlt (sub_pos.mp h))]
      rw [List.pairwise_cons]
      refine ⟨fun b hb => ?_, ih hys (List.pairwise_cons.mp hs).2⟩
      rcases (mem_insertJs cmp x ys b).mp hb with rfl | hb'
      · linarith
      · exact (List.pairwise_cons.mp hs).1 b hb'

theorem filter_key_eq_nil {α : Type} (k : α → ℚ) (q : ℚ) (y : α) (ys : List α)
    (hs : (y :: ys).Pairwise (fun a b => k b ≤ k a)) (h : k y < q) :
    (y :: ys).filter (fun a => decide (k a = q)) = [] := by
  rw [List.filter_eq_nil_iff]
  intro a ha
  rcases List.mem_cons.mp ha with rfl | ha'
  · simp
    linarith
  · have := (List.pairwise_cons.mp hs).1 a ha'
    simp
    linarith

theorem filter_insertJs {α : Type} (cmp : α → α → JsNum) (P : α → Prop) (k : α → ℚ)
    (hcmp : ∀ a b, P a → P b → cmp a b = JsNum.num (k b - k a))
    (q : ℚ) (x : α) (l : List α) (hx : P x) (hl : ∀ a ∈ l, P a)
    (hs : l.Pairwise (fun a b => k b ≤ k a)) :
    (insertJs cmp x l).filter (fun a => decide (k a = q)) =
      if k x = q then l.filter (fun a => decide (k a = q)) ++ [x]
      else l.filter (fun a => decide (k a = q)) := by
  induction l with
  | nil => by_cases h : k x = q <;> simp [insertJs, h]
  | cons y ys ih =>
    have hy : P y := hl y (List.mem_cons_self y ys)
    have hys : ∀ a ∈ ys, P a := fun a ha => hl a (List.mem_cons_of_mem y ha)
    have hsy := (List.pairwise_cons.mp hs).2
    rw [insertJs, hcmp y x hy hx, gt0_num]
    by_cases hlt : k y < k x
    · rw [if_pos (by simpa using sub_pos.mpr hlt)]
      by_cases hq : k x = q
      · rw [if_pos hq, List.filter_cons]
        rw [filter_key_eq_nil k q y ys hs (hq ▸ hlt)]
        simp [hq]
      · rw [if_neg hq, List.filter_cons]
        simp [hq]
    · rw [if_neg (by simpa using fun h => hlt (sub_pos.mp h))]
      rw [List.filter_cons, List.filter_cons]
      rw [ih hys hsy]
      by_cases hq : k x = q <;> by_cases hyq : k y = q <;> simp [hq, hyq]

theorem mem_foldl_insertJs {α : Type} (cmp : α → α → JsNum) :
    ∀ (l acc : List α) (a : α),
      a ∈ List.foldl (fun acc x => insertJs cmp x acc) acc l ↔ a ∈ acc ∨ a ∈ l := by
  intro l
  induction l with
  | nil => simp
  | cons t ts ih =>
    intro acc a
    rw [List.foldl_cons, ih, mem_insertJs]
    simp [List.mem_cons]
    tauto

theorem length_foldl_insertJs {α : Type} (cmp : α → α → JsNum) :
    ∀ (l acc : List α),
      (List.foldl (fun acc x => insertJs cmp x acc) acc l).length = acc.length + l.length := by
  intro l
  induction l with
  | nil => simp
  | cons t ts ih =>
    intro acc
    rw [List.foldl_cons, ih, length_insertJs, List.length_cons]
    omega

theorem sortJs_invariant {α : Type} (cmp : α → α → JsNum) (P : α → Prop) (k : α → ℚ)
    (hcmp : ∀ a b, P a → P b → cmp a b = JsNum.num (k b - k a)) :
    ∀ (l acc : List α), (∀ a ∈ l, P a) → (∀ a ∈ acc, P a) →
      acc.Pairwise (fun a b => k b ≤ k a) →
      (List.foldl (fun acc x => insertJs cmp x acc) acc l).Pairwise (fun a b => k b ≤ k a) ∧
      ∀ q, (List.foldl (fun acc x => insertJs cmp x acc) acc l).filter
            (fun a => decide (k a = q)) =
          acc.filter (fun a => decide (k a = q)) ++ l.filter (fun a => decide (k a = q)) := by
  intro l
  induction l with
  | nil =>
    intro acc _ _ hs
    exact ⟨hs, fun q => by simp⟩
  | cons t ts ih =>
    intro acc hl hacc hs
    have ht : P t := hl t (List.mem_cons_self t ts)
    have hts : ∀ a ∈ ts, P a := fun a ha => hl a (List.mem_cons_of_mem t ha)
    have hacc' : ∀ a ∈ insertJs cmp t acc, P a := by
      intro a ha
      rcases (mem_insertJs cmp t acc a).mp ha with rfl | h
      · exact ht
      · exact hacc a h
    have hs' := sorted_insertJs cmp P k hcmp t acc ht hacc hs
    have main := ih (insertJs cmp t acc) hts hacc' hs'
    rw [List.foldl_cons]
    refine ⟨main.1, fun q => ?_⟩
    rw [main.2 q, filter_insertJs cmp P k hcmp q t acc ht hacc hs, List.filter_cons]
    by_cases hq : k t = q <;> simp [hq]

theorem sortJs_mem {α : Type} (cmp : α → α → JsNum) (l : List α) (a : α) :
    a ∈ sortJs cmp l ↔ a ∈ l := by
  unfold sortJs
  rw [mem_foldl_insertJs]
  simp

theorem sortJs_length {α : Type} (cmp : α → α → JsNum) (l : List α) :
    (sortJs cmp l).length = l.length := by
  unfold sortJs
  rw [length_foldl_insertJs]
  simp

theorem sortJs_sorted {α : Type} (cmp : α → α → JsNum) (P : α → Prop) (k : α → ℚ)
    (hcmp : ∀ a b, P a → P b → cmp a b = JsNum.num (k b - k a))
    (l : List α) (hl : ∀ a ∈ l, P a) :
    (sortJs cmp l).Pairwise (fun a b => k b ≤ k a) :=
  (sortJs_invariant cmp P k hcmp l [] hl (by simp) (by simp)).1

theorem sortJs_filter_key {α : Type} (cmp : α → α → JsNum) (P : α → Prop) (k : α → ℚ)
    (hcmp : ∀ a b, P a → P b → cmp a b = JsNum.num (k b - k a))
    (l : List α) (hl : ∀ a ∈ l, P a) (q : ℚ) :
    (sortJs cmp l).filter (fun a => decide (k a = q)) =
      l.filter (fun a => decide (k a = q)) := by
  unfold sortJs
  rw [(sortJs_invariant cmp P k hcmp l [] hl (by simp) (by simp)).2 q]
  simp

/-! ### Lemmas about the category-grouping reduce -/

theorem alookup_append_some {β : Type} (c : String) (l l2 : List (String × β)) (w : β)
    (h : alookup c l = some w) : alookup c (l ++ l2) = some w := by
  induction l with
  | nil => simp [alookup] at h
  | cons p ps ih =>
    rw [List.cons_append, alookup]
    rw [alookup] at h
    by_cases hp : p.1 == c
    · simp [hp] at h
      simp [hp, h]
    · simp [hp] at h
      simp [hp, ih h]

theorem alookup_append_none {β : Type} (c : String) (l l2 : List (String × β))
    (h : alookup c l = none) : alookup c (l ++ l2) = alookup c l2 := by
  induction l with
  | nil => simp
  | cons p ps ih =>
    rw [List.cons_append, alookup]
    rw [alookup] at h
    by_cases hp : p.1 == c
    · simp [hp] at h
    · simp [hp] at h ⊢
      exact ih h

theorem alookup_map_update {β : Type} (g : β → β) (tcat c : String) (l : List (String × β)) :
    alookup c (l.map (fun p => if p.1 == tcat then (p.1, g p.2) else p)) =
      if c = tcat then (alookup c l).map g else alookup c l := by
  induction l with
  | nil => by_cases h : c = tcat <;> simp [alookup, h]
  | cons p ps ih =>
    rw [List.map_cons]
    simp only [beq_iff_eq] at ih ⊢
    by_cases hpt : p.1 = tcat <;> by_cases hpc : p.1 = c
    · have hct : c = tcat := hpc ▸ hpt
      simp [alookup, hpt, hpc, hct]
    · have hct : ¬(c = tcat) := fun h => hpc (by rw [hpt, ← h])
      simp [alookup, hpt, hpc, hct, Ne.symm hct, ih]
    · have hct : ¬(c = tcat) := fun h => hpt (by rw [hpc, h])
      simp [alookup, hpt, hpc, hct, Ne.symm hct]
    · simp [alookup, hpt, hpc, ih]

theorem alookup_catStep {β : Type} (f : Option β → Transaction → β)
    (acc : List (String × β)) (t : Transaction) (c : String) :
    alookup c (catStep f acc t) =
      if t.category = c then some (f (alookup c acc) t) else alookup c acc := by
  unfold catStep
  cases h : alookup t.category acc with
  | some w =>
    rw [alookup_map_update (fun v => f (some v) t) t.category c acc]
    by_cases hc : c = t.category
    · subst hc
      simp [h]
    · simp [hc, Ne.symm hc]
  | none =>
    by_cases hc : c = t.category
    · subst hc
      rw [alookup_append_none t.category acc _ h]
      simp [alookup, h]
    · rw [if_neg (Ne.symm hc)]
      cases h2 : alookup c acc with
      | some w => exact alookup_append_some c acc _ w h2
      | none =>
        rw [alookup_append_none c acc _ h2]
        simp [alookup, Ne.symm hc]

/-- The per-category residue of the reduce: fold `f` over the transactions of
one category, in order, starting from `none`. -/
def catAcc {β : Type} (f : Option β → Transaction → β) (l : List Transaction)
    (c : String) : Option β :=
  l.foldl (fun o t => if t.category = c then some (f o t) else o) none

theorem alookup_foldl_catStep {β : Type} (f : Option β → Transaction → β) (c : String) :
    ∀ (l : List Transaction) (acc : List (String × β)),
      alookup c (l.foldl (catStep f) acc) =
        l.foldl (fun o t => if t.category = c then some (f o t) else o) (alookup c acc) := by
  intro l
  induction l with
  | nil => intro acc; simp
  | cons t ts ih =>
    intro acc
    rw [List.foldl_cons, List.foldl_cons, ih, alookup_catStep]

theorem alookup_foldCat {β : Type} (f : Option β → Transaction → β)
    (l : List Transaction) (c : String) :
    alookup c (foldCat f l) = catAcc f l c := by
  unfold foldCat catAcc
  rw [alookup_foldl_catStep]
  rfl

/-- The key list of an association list. -/
def keysOf {β : Type} (l : List (String × β)) : List String := l.map Prod.fst

theorem alookup_eq_none_iff {β : Type} (c : String) (l : List (String × β)) :
    alookup c l = none ↔ c ∉ keysOf l := by
  induction l with
  | nil => simp [alookup, keysOf]
  | cons p ps ih =>
    rw [alookup]
    by_cases hp : p.1 = c
    · simp [hp, keysOf]
    · have : ¬(p.1 == c) := by simpa using hp
      simp [this, ih, keysOf, Ne.symm hp]

theorem keysOf_catStep {β : Type} (f : Option β → Transaction → β)
    (acc : List (String × β)) (t : Transaction) :
    keysOf (catStep f acc t) =
      if t.category ∈ keysOf acc then keysOf acc else keysOf acc ++ [t.category] := by
  unfold catStep
  cases h : alookup t.category acc with
  | some w =>
    have hmem : t.category ∈ keysOf acc := by
      by_contra hc
      rw [(alookup_eq_none_iff t.category acc).mpr hc] at h
      cases h
    rw [if_pos hmem]
    unfold keysOf
    rw [List.map_map]
    apply List.map_congr_left
    intro p _
    simp only [Function.comp]
    by_cases hp : p.1 = t.category <;> simp [hp]
  | none =>
    have hmem : t.category ∉ keysOf acc := (alookup_eq_none_iff t.category acc).mp h
    rw [if_neg hmem]
    unfold keysOf
    simp

theorem keysOf_foldl_catStep {β : Type} (f : Option β → Transaction → β) :
    ∀ (l : List Transaction) (acc : List (String × β)),
      keysOf (l.foldl (catStep f) acc) =
        (l.map (fun t => t.category)).foldl
          (fun a c => if c ∈ a then a else a ++ [c]) (keysOf acc) := by
  intro l
  induction l with
  | nil => intro acc; simp
  | cons t ts ih =>
    intro acc
    rw [List.foldl_cons, List.map_cons, List.foldl_cons, ih, keysOf_catStep]

theorem keysOf_foldCat {β : Type} (f : Option β → Transaction → β) (l : List Transaction) :
    keysOf (foldCat f l) = firstDedup (l.map (fun t => t.category)) := by
  unfold foldCat firstDedup
  rw [keysOf_foldl_catStep]
  rfl

theorem firstDedup_aux_nodup :
    ∀ (l : List String) (acc : List String), acc.Nodup →
      (l.foldl (fun a c => if c ∈ a then a else a ++ [c]) acc).Nodup := by
  intro l
  induction l with
  | nil => intro acc h; simpa using h
  | cons c cs ih =>
    intro acc h
    rw [List.foldl_cons]
    by_cases hc : c ∈ acc
    · rw [if_pos hc]
      exact ih acc h
    · rw [if_neg hc]
      refine ih _ ?_
      rw [(List.perm_append_singleton c acc).nodup_iff]
      exact List.nodup_cons.mpr ⟨hc, h⟩

theorem firstDedup_nodup (l : List String) : (firstDedup l).Nodup :=
  firstDedup_aux_nodup l [] (by simp)

theorem alookup_of_mem {β : Type} :
    ∀ (l : List (String × β)), (keysOf l).Nodup →
      ∀ p : String × β, p ∈ l → alookup p.1 l = some p.2 := by
  intro l
  induction l with
  | nil => intro _ p hp; cases hp
  | cons x xs ih =>
    intro h p hp
    have hx : x.1 ∉ keysOf xs := by
      have : keysOf (x :: xs) = x.1 :: keysOf xs := rfl
      rw [this] at h
      exact (List.nodup_cons.mp h).1
    rcases List.mem_cons.mp hp with rfl | hp'
    · simp [alookup]
    · have hne : ¬(x.1 == p.1) := by
        simp only [beq_iff_eq]
        intro he
        apply hx
        rw [he]
        exact List.mem_map_of_mem Prod.fst hp'
      rw [alookup, if_neg (by simpa using hne)]
      have : keysOf (x :: xs) = x.1 :: keysOf xs := rfl
      rw [this] at h
      exact ih (List.nodup_cons.mp h).2 p hp'

theorem catAcc_eq_filter_foldl {β : Type} (f : Option β → Transaction → β) (c : String) :
    ∀ (l : List Transaction) (o : Option β),
      l.foldl (fun o t => if t.category = c then some (f o t) else o) o =
        (l.filter (fun t => t.category == c)).foldl (fun o t => some (f o t)) o := by
  intro l
  induction l with
  | nil => intro o; simp
  | cons t ts ih =>
    intro o
    rw [List.foldl_cons, List.filter_cons]
    by_cases h : t.category = c
    · rw [if_pos h, if_pos (by simpa using h), List.foldl_cons]
      exact ih (some (f o t))
    · rw [if_neg h, if_neg (by simpa using h)]
      exact ih o

/-! ### Values of the insights-path breakdown, and the metric folds -/

/-- Sum of the parsed amounts of a transaction list. -/
def amountsSum (l : List Transaction) : ℚ :=
  (l.map (fun t => (parseFloat t.amount).toQ)).sum

theorem isNum_exists (x : JsNum) (h : x.isNum = true) : ∃ q : ℚ, x = JsNum.num q := by
  cases x with
  | num q => exact ⟨q, rfl⟩
  | nan => cases h
  | inf => cases h
  | negInf => cases h

theorem sub_num (a b : ℚ) : (JsNum.num a).sub (JsNum.num b) = JsNum.num (a - b) := by
  simp [JsNum.sub, JsNum.neg, JsNum.add, sub_eq_add_neg]

theorem numCat_foldl_some :
    ∀ (l : List Transaction), (∀ t ∈ l, (parseFloat t.amount).isNum = true) →
      ∀ s : ℚ, l.foldl (fun o t => some (numCatUpdate o t)) (some (JsNum.num s)) =
        some (JsNum.num (s + amountsSum l)) := by
  intro l
  induction l with
  | nil =>
    intro _ s
    simp [amountsSum]
  | cons t ts ih =>
    intro hl s
    have ht := hl t (List.mem_cons_self t ts)
    obtain ⟨q, hpt⟩ := isNum_exists _ ht
    rw [List.foldl_cons]
    have hstep : numCatUpdate (some (JsNum.num s)) t = JsNum.num (s + q) := by
      simp [numCatUpdate, JsNum.or0, hpt, JsNum.add]
    rw [hstep, ih (fun a ha => hl a (List.mem_cons_of_mem t ha)) (s + q)]
    simp [amountsSum, hpt, JsNum.toQ, add_assoc]

theorem numCat_foldl_start (l : List Transaction)
    (hl : ∀ t ∈ l, (parseFloat t.amount).isNum = true) (hne : l ≠ []) :
    l.foldl (fun o t => some (numCatUpdate o t)) none = some (JsNum.num (amountsSum l)) := by
  cases l with
  | nil => cases hne rfl
  | cons t ts =>
    have ht := hl t (List.mem_cons_self t ts)
    obtain ⟨q, hpt⟩ := isNum_exists _ ht
    rw [List.foldl_cons]
    have hstep : numCatUpdate none t = JsNum.num (0 + q) := by
      simp [numCatUpdate, hpt, JsNum.add]
    rw [hstep, numCat_foldl_some ts (fun a ha => hl a (List.mem_cons_of_mem t ha)) (0 + q)]
    simp [amountsSum, hpt, JsNum.toQ]

theorem categoryEntries_value (tx : List Transaction) (m : String)
    (hparse : ∀ t ∈ monthExpense tx m, (parseFloat t.amount).isNum = true) :
    ∀ p ∈ categoryEntries tx m,
      p.2 = JsNum.num (amountsSum
        ((monthExpense tx m).filter (fun t => t.category == p.1))) := by
  intro p hp
  have hk : (keysOf (categoryEntries tx m)).Nodup := by
    unfold categoryEntries
    rw [keysOf_foldCat]
    exact firstDedup_nodup _
  have h1 := alookup_of_mem (categoryEntries tx m) hk p hp
  unfold categoryEntries at h1
  rw [alookup_foldCat] at h1
  unfold catAcc at h1
  rw [catAcc_eq_filter_foldl] at h1
  have hfl_parse : ∀ t ∈ (monthExpense tx m).filter (fun t => t.category == p.1),
      (parseFloat t.amount).isNum = true :=
    fun t ht2 => hparse t (List.mem_of_mem_filter ht2)
  cases hfe : (monthExpense tx m).filter (fun t => t.category == p.1) with
  | nil =>
    rw [hfe] at h1
    simp at h1
  | cons a as =>
    rw [numCat_foldl_start _ hfl_parse (by rw [hfe]; simp)] at h1
    rw [← hfe]
    simpa using h1.symm

theorem categoryEntries_isNum (tx : List Transaction) (m : String)
    (hparse : ∀ t ∈ monthExpense tx m, (parseFloat t.amount).isNum = true) :
    ∀ p ∈ categoryEntries tx m, p.2.isNum = true := by
  intro p hp
  rw [categoryEntries_value tx m hparse p hp]
  rfl

theorem cmpEntry_id_num (p q : String × JsNum)
    (hp : p.2.isNum = true) (hq : q.2.isNum = true) :
    cmpEntry id p q = JsNum.num (q.2.toQ - p.2.toQ) := by
  obtain ⟨a, ha⟩ := isNum_exists _ hp
  obtain ⟨b, hb⟩ := isNum_exists _ hq
  rw [show cmpEntry id p q = (q.2).sub p.2 from rfl, ha, hb, sub_num]
  simp [JsNum.toQ, ha, hb]

theorem add_nan_left (x : JsNum) : JsNum.nan.add x = JsNum.nan := by
  cases x <;> rfl

theorem add_nan_right (x : JsNum) : x.add JsNum.nan = JsNum.nan := by
  cases x <;> rfl

theorem foldl_add_from_nan (l : List Transaction) :
    l.foldl (fun s t => s.add (parseFloat t.amount)) JsNum.nan = JsNum.nan := by
  induction l with
  | nil => rfl
  | cons t ts ih =>
    rw [List.foldl_cons, add_nan_left]
    exact ih

theorem foldl_add_mem_nan (l : List Transaction) (t0 : Transaction) :
    t0 ∈ l → parseFloat t0.amount = JsNum.nan →
    ∀ s : JsNum, l.foldl (fun s t => s.add (parseFloat t.amount)) s = JsNum.nan := by
  induction l with
  | nil => intro h; cases h
  | cons t ts ih =>
    intro h hn s
    rcases List.mem_cons.mp h with rfl | h'
    · rw [List.foldl_cons, hn, add_nan_right]
      exact foldl_add_from_nan ts
    · rw [List.foldl_cons]
      exact ih h' hn _

theorem foldl_add_nonneg (l : List Transaction) :
    (∀ t ∈ l, ∃ q : ℚ, parseFloat t.amount = JsNum.num q ∧ 0 ≤ q) →
    ∀ s : ℚ, 0 ≤ s →
    ∃ r : ℚ, l.foldl (fun s t => s.add (parseFloat t.amount)) (JsNum.num s) = JsNum.num r ∧
      0 ≤ r := by
  induction l with
  | nil => intro _ s hs; exact ⟨s, rfl, hs⟩
  | cons t ts ih =>
    intro hl s hs
    obtain ⟨q, hq, hq0⟩ := hl t (List.mem_cons_self t ts)
    rw [List.foldl_cons, hq]
    have hstep : (JsNum.num s).add (JsNum.num q) = JsNum.num (s + q) := rfl
    rw [hstep]
    exact ih (fun a ha => hl a (List.mem_cons_of_mem t ha)) (s + q) (by linarith)

/-- Whether a value is a finite non-negative number. -/
def jsNonnegNum (x : JsNum) : Bool :=
  match x with
  | JsNum.num q => decide (0 ≤ q)
  | _ => false

/-! ### Field characterisations of the metrics, and NaN propagation -/

theorem financialMetrics_income (tx : List Transaction) (m : String) :
    (financialMetrics tx m).income =
      ((tx.filter (fun t => strStartsWith t.date m)).filter
        (fun t => t.type == "income")).foldl
        (fun s t => s.add (parseFloat t.amount)) (JsNum.num 0) := rfl

theorem financialMetrics_expenses (tx : List Transaction) (m : String) :
    (financialMetrics tx m).expenses =
      ((tx.filter (fun t => strStartsWith t.date m)).filter
        (fun t => t.type == "expense")).foldl
        (fun s t => s.add (parseFloat t.amount)) (JsNum.num 0) := rfl

theorem financialMetrics_totalBudget (tx : List Transaction) (m : String) :
    (financialMetrics tx m).totalBudget = JsNum.num (qOfNat 2500) := rfl

theorem financialMetrics_usedPercent (tx : List Transaction) (m : String) :
    (financialMetrics tx m).usedPercent =
      ((financialMetrics tx m).expenses.div (JsNum.num (qOfNat 2500))).mul (JsNum.num 100) := by
  with_unfolding_all rfl

theorem financialMetrics_remaining (tx : List Transaction) (m : String) :
    (financialMetrics tx m).remaining =
      (JsNum.num (qOfNat 2500)).sub (financialMetrics tx m).expenses := rfl

theorem financialMetrics_savingsRate (tx : List Transaction) (m : String) :
    (financialMetrics tx m).savingsRate =
      if (financialMetrics tx m).income.gtb (JsNum.num 0)
      then (((financialMetrics tx m).income.sub (financialMetrics tx m).expenses).div
              (financialMetrics tx m).income).mul (JsNum.num 100)
      else JsNum.num 0 := rfl

theorem div_nan_left (x : JsNum) : JsNum.nan.div x = JsNum.nan := by
  cases x <;> rfl

theorem mul_nan_left (x : JsNum) : JsNum.nan.mul x = JsNum.nan := by
  cases x <;> rfl

theorem sub_nan_right (x : JsNum) : x.sub JsNum.nan = JsNum.nan := by
  cases x <;> rfl

theorem gtb_nan_left (x : JsNum) : JsNum.nan.gtb x = false := by
  cases x <;> rfl

/-! ### Claim C1 -/

/-- C1, counterexample: the claim says a numeric string that fails to parse is
treated as `0` in every derivation.  On a single expense transaction with
amount `"abc"` the engine's expense sum is `NaN`, not `0`: `parseFloat`
returns `NaN` on an unparseable string and the reduce propagates it, so the
claim as stated is false. -/
theorem c1_counterexample :
    (financialMetrics [⟨"t1", "2024-03-02", "abc", "expense", "misc"⟩] "2024-03").expenses
        = JsNum.nan ∧
    JsNum.nan ≠ JsNum.num 0 := by
  exact ⟨by with_unfolding_all rfl, by decide⟩

/-- C1, amended: a numeric string that fails to parse yields `NaN`, which
propagates through the affected sums and ratios (expenses, usedPercent,
remaining all become `NaN` when a month expense amount is unparseable), while
guarded branches treat `NaN` as not-greater-than-zero (a `NaN` income gives
`savingsRate = 0`); no derivation ever throws — each is a total function over
its declared input domain. -/
theorem c1_amended (tx : List Transaction) (m : String) (t0 : Transaction) :
    (t0 ∈ tx → strStartsWith t0.date m = true → t0.type = "expense" →
      parseFloat t0.amount = JsNum.nan →
      (financialMetrics tx m).expenses = JsNum.nan ∧
      (financialMetrics tx m).usedPercent = JsNum.nan ∧
      (financialMetrics tx m).remaining = JsNum.nan) ∧
    ((financialMetrics tx m).income = JsNum.nan →
      (financialMetrics tx m).savingsRate = JsNum.num 0) := by
  constructor
  · intro hmem hdate htype hnan
    have hmem2 : t0 ∈ (tx.filter (fun t => strStartsWith t.date m)).filter
        (fun t => t.type == "expense") := by
      rw [List.mem_filter, List.mem_filter]
      exact ⟨⟨hmem, hdate⟩, by simpa using htype⟩
    have he : (financialMetrics tx m).expenses = JsNum.nan := by
      rw [financialMetrics_expenses]
      exact foldl_add_mem_nan _ t0 hmem2 hnan _
    refine ⟨he, ?_, ?_⟩
    · rw [financialMetrics_usedPercent, he, div_nan_left, mul_nan_left]
    · rw [financialMetrics_remaining, he, sub_nan_right]
  · intro hi
    rw [financialMetrics_savingsRate, hi, gtb_nan_left]
    simp

/-- C1, witness for the amended theorem at the counterexample input. -/
theorem c1_amended_witness :
    (financialMetrics [⟨"t1", "2024-03-02", "abc", "expense", "misc"⟩] "2024-03").expenses
        = JsNum.nan ∧
    (financialMetrics [⟨"t1", "2024-03-02", "abc", "expense", "misc"⟩] "2024-03").usedPercent
        = JsNum.nan ∧
    (financialMetrics [⟨"t1", "2024-03-02", "abc", "expense", "misc"⟩] "2024-03").remaining
        = JsNum.nan :=
  (c1_amended [⟨"t1", "2024-03-02", "abc", "expense", "misc"⟩] "2024-03"
      ⟨"t1", "2024-03-02", "abc", "expense", "misc"⟩).1
    (by decide) (by with_unfolding_all rfl) (by decide) (by with_unfolding_all rfl)

/-! ### Claim C2 -/

/-- C2, counterexample: the claim says every zero divisor is guarded to a `0`
percentage.  Goal progress is not: a goal with `target = "0"` and
`current = "500"` gets progress `Infinity` (`500 / 0 * 100`), not `0` — the
engine has no guard on the goal-progress division. -/
theorem c2_counterexample :
    topGoal [⟨"g1", "G", "500", "0"⟩] = some ⟨"G", JsNum.inf⟩ ∧
    JsNum.inf ≠ JsNum.num 0 := by
  exact ⟨by with_unfolding_all rfl, by decide⟩

/-- C2, amended: the `usedPercent` and `savingsRate` divisions are explicitly
guarded (the `totalBudget > 0` guard is written in the source and, with the
constant budget `2500`, always takes the division branch; `savingsRate` is `0`
whenever `income > 0` fails, including `income = 0` or `NaN`), but goal
progress is unguarded: a target parsing to `0` with a positive current yields
`Infinity`. -/
theorem c2_amended (tx : List Transaction) (m : String) (g : Goal) :
    ((financialMetrics tx m).usedPercent
        = ((financialMetrics tx m).expenses.div (JsNum.num (qOfNat 2500))).mul (JsNum.num 100)) ∧
    ((financialMetrics tx m).income.gtb (JsNum.num 0) = false →
      (financialMetrics tx m).savingsRate = JsNum.num 0) ∧
    (parseFloat g.target = JsNum.num 0 →
      ∀ c : ℚ, parseFloat g.current = JsNum.num c → 0 < c →
        goalProgress g = JsNum.inf) := by
  refine ⟨financialMetrics_usedPercent tx m, ?_, ?_⟩
  · intro h
    rw [financialMetrics_savingsRate, h]
    simp
  · intro ht c hc hcpos
    unfold goalProgress
    rw [ht, hc]
    have hdiv : (JsNum.num c).div (JsNum.num 0) = JsNum.inf := by
      simp [JsNum.div, hcpos, ne_of_gt hcpos]
    rw [hdiv]
    norm_num [JsNum.mul]

/-- C2, witness for the amended theorem at the counterexample goal. -/
theorem c2_amended_witness :
    goalProgress ⟨"g1", "G", "500", "0"⟩ = JsNum.inf :=
  (c2_amended [] "2024-03" ⟨"g1", "G", "500", "0"⟩).2.2
    (by with_unfolding_all rfl) (qOfNat 500) (by with_unfolding_all rfl)
    (by rw [qOfNat_eq_cast]; norm_num)

/-! ### Claim C3 -/

/-- C3, counterexample: the claim says income and expenses are sums of
absolute values, so always non-negative.  The engine takes no absolute value:
a single income transaction with amount `"-100"` makes the monthly income
`-100`, negative — the sign written in the amount string does flow into the
sum. -/
theorem c3_counterexample :
    (financialMetrics [⟨"t1", "2024-03-01", "-100", "income", "salary"⟩] "2024-03").income
        = JsNum.num (-100) ∧
    jsNonnegNum (JsNum.num (-100)) = false := by
  exact ⟨by with_unfolding_all rfl, by decide⟩

/-- C3, amended: income and expenses are plain sums of `parseFloat(amount)`
with the sign taken from the amount string (no absolute value); they are
finite and non-negative provided every month transaction's amount parses to a
non-negative decimal. -/
theorem c3_amended (tx : List Transaction) (m : String)
    (h : ((tx.filter (fun t => strStartsWith t.date m)).all
        (fun t => jsNonnegNum (parseFloat t.amount))) = true) :
    jsNonnegNum (financialMetrics tx m).income = true ∧
    jsNonnegNum (financialMetrics tx m).expenses = true := by
  have hall := List.all_eq_true.mp h
  have hgood : ∀ ty : String,
      ∀ t ∈ (tx.filter (fun t => strStartsWith t.date m)).filter (fun t => t.type == ty),
        ∃ q : ℚ, parseFloat t.amount = JsNum.num q ∧ 0 ≤ q := by
    intro ty t ht
    have hh := hall t (List.mem_of_mem_filter ht)
    cases hp : parseFloat t.amount with
    | num q =>
      rw [hp] at hh
      refine ⟨q, rfl, ?_⟩
      simpa [jsNonnegNum] using hh
    | nan => rw [hp] at hh; simp [jsNonnegNum] at hh
    | inf => rw [hp] at hh; simp [jsNonnegNum] at hh
    | negInf => rw [hp] at hh; simp [jsNonnegNum] at hh
  constructor
  · obtain ⟨r, hr, hr0⟩ := foldl_add_nonneg _ (hgood "income") 0 le_rfl
    rw [financialMetrics_income, hr]
    simpa [jsNonnegNum] using hr0
  · obtain ⟨r, hr, hr0⟩ := foldl_add_nonneg _ (hgood "expense") 0 le_rfl
    rw [financialMetrics_expenses, hr]
    simpa [jsNonnegNum] using hr0

/-- C3, witness for the amended theorem at the spec's example transactions. -/
theorem c3_amended_witness :
    jsNonnegNum (financialMetrics [⟨"1", "2024-03-01", "3000", "income", "salary"⟩,
        ⟨"2", "2024-03-05", "800", "expense", "rent"⟩] "2024-03").income = true ∧
    jsNonnegNum (financialMetrics [⟨"1", "2024-03-01", "3000", "income", "salary"⟩,
        ⟨"2", "2024-03-05", "800", "expense", "rent"⟩] "2024-03").expenses = true :=
  c3_amended [⟨"1", "2024-03-01", "3000", "income", "salary"⟩,
      ⟨"2", "2024-03-05", "800", "expense", "rent"⟩] "2024-03"
    (by with_unfolding_all rfl)

/-! ### Claim C4 -/

/-- C4: `financialMetrics` considers exactly the transactions whose date
starts with the reference month (adding or removing out-of-month transactions
cannot change it: it is invariant under pre-filtering to the month), sums
amounts separately by type, and satisfies the stated formulas:
`usedPercent = expenses / 2500 * 100` (the budget is the constant `2500`),
`remaining = 2500 - expenses`, and
`savingsRate = (income - expenses) / income * 100` when `income > 0`, else
`0`; on the spec's example inputs it yields income `3000`, expenses `800`,
usedPercent `32`, remaining `1700` and savingsRate `220/3 = 73.33…`. -/
theorem c4_metrics (tx : List Transaction) (m : String) :
    financialMetrics tx m = financialMetrics (tx.filter (fun t => strStartsWith t.date m)) m ∧
    (financialMetrics tx m).totalBudget = JsNum.num (qOfNat 2500) ∧
    (financialMetrics tx m).usedPercent
      = ((financialMetrics tx m).expenses.div (JsNum.num (qOfNat 2500))).mul (JsNum.num 100) ∧
    (financialMetrics tx m).remaining
      = (JsNum.num (qOfNat 2500)).sub (financialMetrics tx m).expenses ∧
    ((financialMetrics tx m).income.gtb (JsNum.num 0) = true →
      (financialMetrics tx m).savingsRate
        = (((financialMetrics tx m).income.sub (financialMetrics tx m).expenses).div
            (financialMetrics tx m).income).mul (JsNum.num 100)) ∧
    ((financialMetrics tx m).income.gtb (JsNum.num 0) = false →
      (financialMetrics tx m).savingsRate = JsNum.num 0) ∧
    (financialMetrics [⟨"1", "2024-03-01", "3000", "income", "salary"⟩,
        ⟨"2", "2024-03-05", "800", "expense", "rent"⟩] "2024-03").income
      = JsNum.num (qOfNat 3000) ∧
    (financialMetrics [⟨"1", "2024-03-01", "3000", "income", "salary"⟩,
        ⟨"2", "2024-03-05", "800", "expense", "rent"⟩] "2024-03").expenses
      = JsNum.num (qOfNat 800) ∧
    (financialMetrics [⟨"1", "2024-03-01", "3000", "income", "salary"⟩,
        ⟨"2", "2024-03-05", "800", "expense", "rent"⟩] "2024-03").usedPercent
      = JsNum.num (qOfNat 32) ∧
    (financialMetrics [⟨"1", "2024-03-01", "3000", "income", "salary"⟩,
        ⟨"2", "2024-03-05", "800", "expense", "rent"⟩] "2024-03").remaining
      = JsNum.num (qOfNat 1700) ∧
    (financialMetrics [⟨"1", "2024-03-01", "3000", "income", "salary"⟩,
        ⟨"2", "2024-03-05", "800", "expense", "rent"⟩] "2024-03").savingsRate
      = JsNum.num (220 / 3) := by
  refine ⟨?_, rfl, financialMetrics_usedPercent tx m, financialMetrics_remaining tx m,
    ?_, ?_, by with_unfolding_all rfl, by with_unfolding_all rfl,
    by with_unfolding_all rfl, by with_unfolding_all rfl,
    by with_unfolding_all rfl⟩
  · have hff : (tx.filter (fun t => strStartsWith t.date m)).filter
        (fun t => strStartsWith t.date m) = tx.filter (fun t => strStartsWith t.date m) := by
      rw [List.filter_filter]
      simp
    unfold financialMetrics
    rw [hff]
  · intro hpos
    rw [financialMetrics_savingsRate, if_pos hpos]
  · intro hneg
    rw [financialMetrics_savingsRate, hneg]
    simp

/-- C4, witness: the positive-income branch of the savings-rate formula,
discharged at the spec's example transactions. -/
theorem c4_metrics_witness :
    (financialMetrics [⟨"1", "2024-03-01", "3000", "income", "salary"⟩,
        ⟨"2", "2024-03-05", "800", "expense", "rent"⟩] "2024-03").savingsRate
      = (((financialMetrics [⟨"1", "2024-03-01", "3000", "income", "salary"⟩,
            ⟨"2", "2024-03-05", "800", "expense", "rent"⟩] "2024-03").income.sub
          (financialMetrics [⟨"1", "2024-03-01", "3000", "income", "salary"⟩,
            ⟨"2", "2024-03-05", "800", "expense", "rent"⟩] "2024-03").expenses).div
          (financialMetrics [⟨"1", "2024-03-01", "3000", "income", "salary"⟩,
            ⟨"2", "2024-03-05", "800", "expense", "rent"⟩] "2024-03").income).mul
        (JsNum.num 100) :=
  (c4_metrics [⟨"1", "2024-03-01", "3000", "income", "salary"⟩,
      ⟨"2", "2024-03-05", "800", "expense", "rent"⟩] "2024-03").2.2.2.2.1
    (by with_unfolding_all rfl)

/-! ### Claim C5 -/

/-- C5: `insights` always returns exactly 5 entries in the fixed order
savings, spending, goals, habits, budget — for every input, including empty
transaction and goal lists — and with empty transactions and goals the third
insight's message is the "no goals" fallback text. -/
theorem c5_insights (tx : List Transaction) (gs : List Goal) (m c : String) :
    (insights tx gs m c).map Insight.type
        = ["savings", "spending", "goals", "habits", "budget"] ∧
    (insights tx gs m c).map Insight.title
        = ["Savings Analysis", "Spending Pattern", "Goal Progress", "Spending Habits",
           "Budget Status"] ∧
    (insights tx gs m c).length = 5 ∧
    ((insights [] [] m c)[2]?).map Insight.message
        = some "Set your first goal to start tracking progress!" ∧
    ((insights [] [] m c)[0]?).map Insight.message
        = some "Start tracking your income to see your savings rate." ∧
    ((insights [] [] m c)[1]?).map Insight.message
        = some "No spending data available yet." := by
  exact ⟨rfl, rfl, rfl, rfl, by with_unfolding_all rfl, rfl⟩

/-! ### Claim C6 -/

/-- C6: `pieChartData` emits at most 3 slices, named in the fixed order
Income, Expenses, Savings (a sublist of that order, with Savings computed as
income − expenses), every emitted slice has a strictly positive value, and
with zero transactions it returns the empty list; moreover any slice named
Savings carries exactly the value income − expenses. -/
theorem c6_pie (met : Metrics) (m : String) :
    (pieChartData met).length ≤ 3 ∧
    List.Sublist ((pieChartData met).map Slice.name) ["Income", "Expenses", "Savings"] ∧
    ((pieChartData met).all (fun s => s.value.gt0)) = true ∧
    ((pieChartData met).all
      (fun s => !(s.name == "Savings") || (s.value == met.income.sub met.expenses))) = true ∧
    pieChartData (financialMetrics [] m) = [] := by
  refine ⟨?_, ?_, ?_, ?_, by with_unfolding_all rfl⟩ <;> unfold pieChartData <;>
    by_cases h1 : met.income.gt0 <;> by_cases h2 : met.expenses.gt0 <;>
    by_cases h3 : (met.income.sub met.expenses).gt0 <;>
    simp [h1, h2, h3]

/-! ### Claim C7 -/

/-- C7, counterexample: the claim says one contract governs both category
breakdowns, so they agree.  With expenses food `"100"`, food `"200"`,
rent `"900"` the insights path (which sums via `parseFloat`) ranks rent (900)
over food (300), while the Insights-screen path string-concatenates the raw
amounts (`"0" + "100" + "200" = "0100200"`) and sorts by the numeric coercion
of those strings, ranking food (100200) over rent (900): the two computations
disagree on the top category. -/
theorem c7_counterexample :
    (categoryBreakdown [⟨"1", "2024-03-01", "100", "expense", "food"⟩,
        ⟨"2", "2024-03-02", "200", "expense", "food"⟩,
        ⟨"3", "2024-03-03", "900", "expense", "rent"⟩] "2024-03").head?.map Prod.fst
      = some "rent" ∧
    (screenSorted [⟨"1", "2024-03-01", "100", "expense", "food"⟩,
        ⟨"2", "2024-03-02", "200", "expense", "food"⟩,
        ⟨"3", "2024-03-03", "900", "expense", "rent"⟩] "2024-03").head?.map Prod.fst
      = some "food" ∧
    screenEntries [⟨"1", "2024-03-01", "100", "expense", "food"⟩,
        ⟨"2", "2024-03-02", "200", "expense", "food"⟩,
        ⟨"3", "2024-03-03", "900", "expense", "rent"⟩] "2024-03"
      = [("food", "0100200"), ("rent", "0900")] := by
  exact ⟨by with_unfolding_all rfl, by with_unfolding_all rfl, by with_unfolding_all rfl⟩

/-- C7, amended: the insights-path breakdown alone satisfies the stated
contract — it groups the month's expense transactions by category in
first-encounter order, sums each category's `parseFloat`-parsed amounts, and
sorts descending by summed amount with ties kept in encounter order (stable):
sortedness, stability (the entries of any fixed summed value appear in the
same order as in the unsorted object) and the per-category sums are proved
below, under the hypothesis that the month's expense amounts parse.  The
Insights-screen path instead concatenates raw amount strings and sorts by
their numeric coercion, so the two paths can disagree (see the
counterexample). -/
theorem c7_amended (tx : List Transaction) (m : String)
    (h : ((monthExpense tx m).all (fun t => (parseFloat t.amount).isNum)) = true) :
    (categoryBreakdown tx m).Pairwise (fun p q => q.2.toQ ≤ p.2.toQ) ∧
    (∀ x : ℚ, (categoryBreakdown tx m).filter (fun p => decide (p.2.toQ = x)) =
      (categoryEntries tx m).filter (fun p => decide (p.2.toQ = x))) ∧
    keysOf (categoryEntries tx m)
      = firstDedup ((monthExpense tx m).map (fun t => t.category)) ∧
    (∀ p ∈ categoryEntries tx m,
      p.2 = JsNum.num (amountsSum
        ((monthExpense tx m).filter (fun t => t.category == p.1)))) := by
  have hparse : ∀ t ∈ monthExpense tx m, (parseFloat t.amount).isNum = true :=
    List.all_eq_true.mp h
  have hP : ∀ p ∈ categoryEntries tx m, p.2.isNum = true :=
    categoryEntries_isNum tx m hparse
  refine ⟨?_, ?_, keysOf_foldCat numCatUpdate (monthExpense tx m),
    categoryEntries_value tx m hparse⟩
  · exact sortJs_sorted (cmpEntry id) (fun p => p.2.isNum = true) (fun p => p.2.toQ)
      cmpEntry_id_num _ hP
  · intro x
    exact sortJs_filter_key (cmpEntry id) (fun p => p.2.isNum = true) (fun p => p.2.toQ)
      cmpEntry_id_num _ hP x

/-- C7, witness for the amended theorem at the counterexample input. -/
theorem c7_amended_witness :
    keysOf (categoryEntries [⟨"1", "2024-03-01", "100", "expense", "food"⟩,
        ⟨"2", "2024-03-02", "200", "expense", "food"⟩,
        ⟨"3", "2024-03-03", "900", "expense", "rent"⟩] "2024-03")
      = firstDedup ((monthExpense [⟨"1", "2024-03-01", "100", "expense", "food"⟩,
          ⟨"2", "2024-03-02", "200", "expense", "food"⟩,
          ⟨"3", "2024-03-03", "900", "expense", "rent"⟩] "2024-03").map
            (fun t => t.category)) :=
  (c7_amended [⟨"1", "2024-03-01", "100", "expense", "food"⟩,
      ⟨"2", "2024-03-02", "200", "expense", "food"⟩,
      ⟨"3", "2024-03-03", "900", "expense", "rent"⟩] "2024-03"
    (by with_unfolding_all rfl)).2.2.1

/-! ### Claim C8 -/

theorem cmpRecent_num (a b : Transaction)
    (ha : (jsDateTime a.date).isNum = true) (hb : (jsDateTime b.date).isNum = true) :
    cmpRecent a b = JsNum.num ((jsDateTime b.date).toQ - (jsDateTime a.date).toQ) := by
  obtain ⟨x, hx⟩ := isNum_exists _ ha
  obtain ⟨y, hy⟩ := isNum_exists _ hb
  rw [show cmpRecent a b = (jsDateTime b.date).sub (jsDateTime a.date) from rfl, hx, hy, sub_num]
  simp [JsNum.toQ, hx, hy]

/-- C8: `recentTransactions` returns at most 5 transactions, all dated within
the reference month, sorted descending by date (the `getTime`-derived key),
with equal-date ties kept in input order — stability is stated as: for every
key value, the sorted list's transactions of that date key appear in the same
order as in the month-filtered input; the returned list is the first five of
that sorted list.  The hypothesis restricts to the declared input domain:
every month transaction carries a valid ISO calendar date. -/
theorem c8_recent (tx : List Transaction) (m : String)
    (h : ((tx.filter (fun t => strStartsWith t.date m)).all
        (fun t => (jsDateTime t.date).isNum)) = true) :
    (recentTransactions tx m).length ≤ 5 ∧
    ((recentTransactions tx m).all (fun t => strStartsWith t.date m)) = true ∧
    (recentTransactions tx m).Pairwise
      (fun a b => (jsDateTime b.date).toQ ≤ (jsDateTime a.date).toQ) ∧
    (∀ x : ℚ, (recentSorted tx m).filter (fun t => decide ((jsDateTime t.date).toQ = x)) =
      (tx.filter (fun t => strStartsWith t.date m)).filter
        (fun t => decide ((jsDateTime t.date).toQ = x))) ∧
    recentTransactions tx m = (recentSorted tx m).take 5 := by
  have hP : ∀ t ∈ tx.filter (fun t => strStartsWith t.date m),
      (jsDateTime t.date).isNum = true := List.all_eq_true.mp h
  have hsorted := sortJs_sorted cmpRecent (fun t => (jsDateTime t.date).isNum = true)
    (fun t => (jsDateTime t.date).toQ) cmpRecent_num _ hP
  refine ⟨?_, ?_, ?_, ?_, rfl⟩
  · rw [show recentTransactions tx m = (recentSorted tx m).take 5 from rfl]
    rw [List.length_take]
    exact min_le_left 5 _
  · rw [List.all_eq_true]
    intro t ht
    have h2 : t ∈ recentSorted tx m :=
      List.take_subset 5 (recentSorted tx m) ht
    have h3 := (sortJs_mem cmpRecent _ t).mp h2
    exact (List.mem_filter.mp h3).2
  · exact List.Pairwise.sublist (List.take_sublist 5 (recentSorted tx m)) hsorted
  · intro x
    exact sortJs_filter_key cmpRecent (fun t => (jsDateTime t.date).isNum = true)
      (fun t => (jsDateTime t.date).toQ) cmpRecent_num _ hP x

/-- C8, witness at a concrete three-transaction month. -/
theorem c8_recent_witness :
    (recentTransactions [⟨"1", "2024-03-01", "10", "expense", "a"⟩,
        ⟨"2", "2024-03-05", "20", "expense", "b"⟩,
        ⟨"3", "2024-04-01", "30", "expense", "c"⟩] "2024-03").length ≤ 5 ∧
    recentTransactions [⟨"1", "2024-03-01", "10", "expense", "a"⟩,
        ⟨"2", "2024-03-05", "20", "expense", "b"⟩,
        ⟨"3", "2024-04-01", "30", "expense", "c"⟩] "2024-03"
      = (recentSorted [⟨"1", "2024-03-01", "10", "expense", "a"⟩,
          ⟨"2", "2024-03-05", "20", "expense", "b"⟩,
          ⟨"3", "2024-04-01", "30", "expense", "c"⟩] "2024-03").take 5 :=
  ⟨(c8_recent [⟨"1", "2024-03-01", "10", "expense", "a"⟩,
      ⟨"2", "2024-03-05", "20", "expense", "b"⟩,
      ⟨"3", "2024-04-01", "30", "expense", "c"⟩] "2024-03" (by with_unfolding_all rfl)).1,
   (c8_recent [⟨"1", "2024-03-01", "10", "expense", "a"⟩,
      ⟨"2", "2024-03-05", "20", "expense", "b"⟩,
      ⟨"3", "2024-04-01", "30", "expense", "c"⟩] "2024-03"
     (by with_unfolding_all rfl)).2.2.2.2⟩

/-! ### Claim C9 -/

/-- C9, counterexample: the claim says two evaluations on identical
(transactions, goals, referenceMonth) inputs yield identical outputs.  The
insights derivation also reads the user's currency through `formatCurrency`:
with the same single expense transaction, the same (empty) goals and the same
month, a USD user and a EUR user get different insight lists (the spending
message formats the top amount as `$500.00` versus `€500.00`). -/
theorem c9_counterexample :
    insights [⟨"t1", "2024-03-02", "500", "expense", "food"⟩] [] "2024-03" "USD" ≠
    insights [⟨"t1", "2024-03-02", "500", "expense", "food"⟩] [] "2024-03" "EUR" := by
  with_unfolding_all decide

/-- C9, amended: every derivation is deterministic and side-effect-free given
(transactions, goals, referenceMonth, user currency) — the metrics, pie data
and recent transactions are functions of (transactions, referenceMonth) alone
and cannot read the currency or the clock, and across currencies the insight
list keeps its types and titles (only the spending message's formatted amount
can differ). -/
theorem c9_amended (tx : List Transaction) (gs : List Goal) (m c1 c2 : String) :
    financialMetrics tx m = financialMetrics tx m ∧
    pieChartData (financialMetrics tx m) = pieChartData (financialMetrics tx m) ∧
    recentTransactions tx m = recentTransactions tx m ∧
    insights tx gs m c1 = insights tx gs m c1 ∧
    (insights tx gs m c1).map Insight.type = (insights tx gs m c2).map Insight.type ∧
    (insights tx gs m c1).map Insight.title = (insights tx gs m c2).map Insight.title :=
  ⟨rfl, rfl, rfl, rfl, rfl, rfl⟩

/-! ### Claim C10 -/

/-- C10: the Insights-screen category breakdown renders
`min 4 (number of distinct expense categories in the reference month)` rows:
the reduce produces one entry per distinct category (in first-encounter
order), the sort is a permutation, and `.slice(0, 4)` truncates to four. -/
theorem c10_screen (tx : List Transaction) (m : String) :
    (screenBreakdown tx m).length
      = min 4 (firstDedup ((monthExpense tx m).map (fun t => t.category))).length := by
  rw [show screenBreakdown tx m = (sortJs (cmpEntry jsToNumber) (screenEntries tx m)).take 4
      from rfl]
  rw [List.length_take, sortJs_length]
  have h1 : (screenEntries tx m).length = (keysOf (screenEntries tx m)).length := by
    unfold keysOf
    rw [List.length_map]
  rw [h1]
  rw [show screenEntries tx m = foldCat strCatUpdate (monthExpense tx m) from rfl]
  rw [keysOf_foldCat]
